import Mathlib

/-!
# Verification of the ETF / bond-futures DV01 spread-backtest core

Shallow embedding of the daily simulation loop of
`backtest/backtest_with_alpha_threshold.py` (function `backtest_spread_strategy`)
and of `utils/dv01_calc.py` (function `calculate_dv01_metrics`).

Numbers are modelled as rationals (`ℚ`).  The two float operations the code
uses that have no rational counterpart — `numpy.sqrt` inside the Sharpe ratio
and the real power `**` inside the annualised return — are passed in as
abstract function parameters.  `NaN` values (the shifted-away tail of the
signal series, the undefined Calmar / win-rate / Sharpe statistics) are
modelled with `Option ℚ`, where `none` plays the role of `NaN` in every
comparison the code performs (any comparison with `NaN` is false).
-/

namespace DV01Backtest

/-- Round half to even, the rounding used by `numpy.rint` and Python 3's
built-in `round`. -/
def rnd (q : ℚ) : ℤ :=
  if q - (⌊q⌋ : ℚ) < 1/2 then ⌊q⌋
  else if 1/2 < q - (⌊q⌋ : ℚ) then ⌊q⌋ + 1
  else if ⌊q⌋ % 2 = 0 then ⌊q⌋ else ⌊q⌋ + 1

/-- One input row of the price dataframe handed to `calculate_dv01_metrics`. -/
structure PriceRow where
  date : ℕ
  close_etf : ℚ
  close_fut : ℚ
deriving Repr, DecidableEq

instance : Inhabited PriceRow := ⟨⟨0, 0, 0⟩⟩

/-- One output row of `calculate_dv01_metrics`.  The source calls the last
column `hedge_ratio`; it is named `ratioInt` here. -/
structure Dv01Row where
  date : ℕ
  close_etf : ℚ
  close_fut : ℚ
  etf_dv01 : ℚ
  fut_dv01 : ℚ
  ratioInt : ℤ
deriving Repr, DecidableEq

instance : Inhabited Dv01Row := ⟨⟨0, 0, 0, 0, 0, 0⟩⟩

/-- `utils/dv01_calc.py`, `calculate_dv01_metrics`: per-day ETF DV01,
futures DV01 and their rounded quotient (`np.rint`, half-to-even). -/
def calculate_dv01_metrics (rows : List PriceRow)
    (etf_duration ctd_dv01 conversion_factor : ℚ) : List Dv01Row :=
  rows.map fun r =>
    { date := r.date
      close_etf := r.close_etf
      close_fut := r.close_fut
      etf_dv01 := r.close_etf * etf_duration * (1/10000)
      fut_dv01 := (ctd_dv01 / conversion_factor) * 10000
      ratioInt := rnd ((r.close_etf * etf_duration * (1/10000)) /
        ((ctd_dv01 / conversion_factor) * 10000)) }

/-- Value of a decimal digit string (most significant first). -/
def digitsToNat (cs : List Char) : ℕ :=
  cs.foldl (fun n c => n * 10 + (c.toNat - 48)) 0

/-- Maximal all-digit suffix of a character list. -/
def trailingDigits (cs : List Char) : List Char :=
  (cs.reverse.takeWhile Char.isDigit).reverse

/-- The horizon parse `re.search(r"(\d+)d$", pred_col)` of the backtest:
the digits immediately before a final letter `d`; `0` when the pattern is
absent. -/
def parseShift (s : String) : ℕ :=
  match s.data.getLast? with
  | some c =>
    if c = 'd' then
      let ds := trailingDigits s.data.dropLast
      if ds.isEmpty then 0 else digitsToNat ds
    else 0
  | none => 0

/-- Scalar configuration of `backtest_spread_strategy`. -/
structure Config where
  initial_capital : ℚ
  margin_rate : ℚ
  tick_etf : ℚ
  tick_fut : ℚ
  etf_duration : ℚ
  conversion_factor : ℚ
  stop_gain : ℚ
  stop_loss : ℚ
  alpha_entry_threshold : ℚ
deriving Repr, DecidableEq

/-- One input row of the backtest dataframe (after column renaming). -/
structure Row where
  date : ℕ
  open_etf : ℚ
  open_fut : ℚ
  close_etf : ℚ
  close_fut : ℚ
  pred : ℚ
deriving Repr, DecidableEq

instance : Inhabited Row := ⟨⟨0, 0, 0, 0, 0, 0⟩⟩

/-- A row after the hedge-ratio merge and the signal shift: `hr` is the
merged `hedge_ratio` column (an integer read back as a float) and `sig` is
`_signal_today`, `none` standing for the `NaN` produced by the shift. -/
structure RowX where
  date : ℕ
  open_etf : ℚ
  open_fut : ℚ
  close_etf : ℚ
  close_fut : ℚ
  hr : ℚ
  sig : Option ℚ
deriving Repr, DecidableEq

instance : Inhabited RowX := ⟨⟨0, 0, 0, 0, 0, 0, none⟩⟩

/-- `signal_today > 0` with `NaN > 0 = False`. -/
def sigPos : Option ℚ → Bool
  | none => false
  | some x => decide (0 < x)

/-- `signal_today < t` with `NaN < t = False`. -/
def sigBelow (s : Option ℚ) (t : ℚ) : Bool :=
  match s with
  | none => false
  | some x => decide (x < t)

/-- Python truthiness of the float-or-None variable `entry_equity_alpha`:
`None` and `0.0` are falsy. -/
def optTruthy : Option ℚ → Bool
  | none => false
  | some x => decide (x ≠ 0)

/-- Hedge-ratio merge plus signal alignment (`pred.shift(-N)`), producing
the per-day rows the loop consumes.  The left-merge on `date` is positional
because `calculate_dv01_metrics` returns one row per input row in order. -/
def prepRows (cfg : Config) (pred_col : String) (rows : List Row) : List RowX :=
  let dv := calculate_dv01_metrics (rows.map fun r => ⟨r.date, r.close_etf, r.close_fut⟩)
    cfg.etf_duration (42/1000) cfg.conversion_factor
  let N := parseShift pred_col
  let n := rows.length
  (List.range n).map fun i =>
    let r := rows.getD i default
    { date := r.date
      open_etf := r.open_etf
      open_fut := r.open_fut
      close_etf := r.close_etf
      close_fut := r.close_fut
      hr := (((dv.getD i default).ratioInt : ℤ) : ℚ)
      sig := if i + N < n then some ((rows.getD (i + N) default).pred) else none }

/-- The mutable loop state of `backtest_spread_strategy`. -/
structure State where
  base_built : Bool
  base_etf_units : ℤ
  base_fut_units : ℤ
  alpha_etf_units : ℤ
  alpha_fut_units : ℤ
  entry_equity_alpha : Option ℚ
  cash : ℚ
  capital : ℚ
  holding : Bool
  n_etf : ℚ
  n_fut : ℤ
  entry_equity : ℚ
  entry_etf_price : ℚ
  entry_fut_price : ℚ
  realized_pnls : List ℚ
deriving Repr, DecidableEq

/-- The account state before the first day. -/
def initState (cfg : Config) : State :=
  { base_built := false
    base_etf_units := 0
    base_fut_units := 0
    alpha_etf_units := 0
    alpha_fut_units := 0
    entry_equity_alpha := none
    cash := cfg.initial_capital
    capital := cfg.initial_capital
    holding := false
    n_etf := 0
    n_fut := 0
    entry_equity := 0
    entry_etf_price := 0
    entry_fut_price := 0
    realized_pnls := [] }

/-- One ledger row. -/
structure DailyRecord where
  date : ℕ
  position : ℤ
  trade : ℤ
  equity : ℚ
  cum_return : ℚ
deriving Repr, DecidableEq

instance : Inhabited DailyRecord := ⟨⟨0, 0, 0, 0, 0⟩⟩

/-- Base-book one-time build (first `if` of the Alpha/Base block). -/
def baseBuildSub (s : State) (r : RowX) : State :=
  if s.base_built = false ∧ sigPos r.sig = true ∧ 0 < r.hr ∧ 0 < r.open_etf then
    { s with base_etf_units := 1000
             base_fut_units := rnd (1000 * r.hr)
             base_built := true }
  else s

/-- Alpha-book accumulation (second `if` of the Alpha/Base block). -/
def alphaAccumSub (cfg : Config) (s : State) (r : RowX) : State :=
  if sigBelow r.sig cfg.alpha_entry_threshold = true ∧ 0 < r.hr then
    if s.alpha_etf_units < 2 * s.base_etf_units then
      let ae := s.alpha_etf_units + 100
      let af := s.alpha_fut_units + rnd (100 * r.hr)
      { s with alpha_etf_units := ae
               alpha_fut_units := af
               entry_equity_alpha := some (s.cash +
                 ((s.base_etf_units + ae : ℤ) : ℚ) * r.open_etf -
                 ((s.base_fut_units + af : ℤ) : ℚ) * r.open_fut * 10000) }
    else s
  else s

/-- Alpha-book stop exit (third `if` of the Alpha/Base block).  The guard
`alpha_etf_units > 0 and entry_equity_alpha` uses Python truthiness, so a
recorded basis of exactly `0.0` disables the check. -/
def alphaExitSub (cfg : Config) (s : State) (r : RowX) : State :=
  if 0 < s.alpha_etf_units ∧ optTruthy s.entry_equity_alpha = true then
    let e := s.entry_equity_alpha.getD 0
    let total_value_now := s.cash +
      ((s.base_etf_units + s.alpha_etf_units : ℤ) : ℚ) * r.open_etf -
      ((s.base_fut_units + s.alpha_fut_units : ℤ) : ℚ) * r.open_fut * 10000
    let alpha_pnl_rate := (total_value_now - e) / e
    if cfg.stop_gain ≤ alpha_pnl_rate ∨ alpha_pnl_rate ≤ -cfg.stop_loss then
      { s with realized_pnls := s.realized_pnls ++ [alpha_pnl_rate]
               alpha_etf_units := 0
               alpha_fut_units := 0
               entry_equity_alpha := none }
    else s
  else s

/-- The whole Alpha/Base block, in source order. -/
def alphaBasePhase (cfg : Config) (s : State) (r : RowX) : State :=
  alphaExitSub cfg (alphaAccumSub cfg (baseBuildSub s r) r) r

/-- Step 4.1 of the loop: stop-gain / stop-loss / signal-flip exit of the
primary position.  Returns the new state and `trade_action`. -/
def primaryExitPhase (cfg : Config) (s : State) (r : RowX) : State × ℤ :=
  if s.holding = true then
    let etf_value_open := s.n_etf * r.open_etf
    let fut_pnl_open := (s.entry_fut_price - r.open_fut) * (s.n_fut : ℚ) * 10000
    let current_equity_open := s.cash + etf_value_open + fut_pnl_open
    let pnl_rate := if s.entry_equity ≠ 0 then
      (current_equity_open - s.entry_equity) / s.entry_equity else 0
    if cfg.stop_gain ≤ pnl_rate ∨ pnl_rate ≤ -cfg.stop_loss ∨ ¬ sigPos r.sig = true then
      ({ s with cash := current_equity_open
                realized_pnls := s.realized_pnls ++ [pnl_rate]
                holding := false
                n_etf := 0
                n_fut := 0
                capital := current_equity_open }, -1)
    else (s, 0)
  else (s, 0)

/-- `available_funds = capital * 0.90`: the reserved fraction of capital. -/
def availableFunds (s : State) : ℚ := s.capital * (9/10)

/-- First-pass sizing: maximal affordable ETF count ignoring margin, futures
lots rounded with a floor of one, ETF count back-derived from the lots.
Returns `(n_etf, n_fut)`. -/
def firstPass (s : State) (r : RowX) : ℤ × ℤ :=
  let max_etf : ℤ := ⌊availableFunds s / r.open_etf⌋
  let nf1 : ℤ := max 1 (rnd ((max_etf : ℚ) * r.hr))
  (⌊((nf1 : ℚ) / r.hr)⌋, nf1)

/-- `total_required = margin_required + etf_cost` for given counts. -/
def requiredCapital (cfg : Config) (r : RowX) (ne nf : ℤ) : ℚ :=
  (nf : ℚ) * cfg.margin_rate * r.open_fut * 10000 + (ne : ℚ) * r.open_etf

/-- The single proportional scale-down pass. -/
def secondPass (s : State) (r : RowX) (ne1 : ℤ) (total1 : ℚ) : ℤ × ℤ :=
  let scale := availableFunds s / total1
  let ne2 : ℤ := ⌊(ne1 : ℚ) * scale⌋
  (ne2, max 1 (rnd ((ne2 : ℚ) * r.hr)))

/-- Step 4.2 of the loop: sizing and entry of the primary position.
`ta` is the `trade_action` value accumulated so far this day. -/
def primaryEntryPhase (cfg : Config) (s : State) (r : RowX) (ta : ℤ) : State × ℤ :=
  if s.holding = false ∧ sigPos r.sig = true then
    if r.open_etf ≤ 0 ∨ r.hr ≤ 0 then (s, ta)
    else
      let p1 := firstPass s r
      let total1 := requiredCapital cfg r p1.1 p1.2
      let triple :=
        if availableFunds s < total1 ∧ 0 < total1 then
          let p2 := secondPass s r p1.1 total1
          let total2 := requiredCapital cfg r p2.1 p2.2
          if availableFunds s < total2 then ((0 : ℤ), (0 : ℤ), (0 : ℚ))
          else (p2.1, p2.2, (p2.1 : ℚ) * r.open_etf)
        else (p1.1, p1.2, (p1.1 : ℚ) * r.open_etf)
      let ne := triple.1
      let nf := triple.2.1
      let etf_cost := triple.2.2
      let s1 := { s with n_etf := (ne : ℚ), n_fut := nf }
      if 0 < ne ∧ 0 < nf then
        let slip_etf_cost := (ne : ℚ) * cfg.tick_etf * 3
        let slip_fut_cost := (nf : ℚ) * cfg.tick_fut * 10000
        let cash2 := s1.cash - (etf_cost + slip_etf_cost + slip_fut_cost)
        let ee := cash2 + (ne : ℚ) * r.open_etf
        ({ s1 with cash := cash2
                   holding := true
                   entry_equity := ee
                   entry_etf_price := r.open_etf
                   entry_fut_price := r.open_fut
                   capital := ee }, 1)
      else (s1, ta)
  else (s, ta)

/-- Step 4.3 of the loop: the day's ledger row.  When holding, the equity
mark combines cash with the base+alpha book at the open price. -/
def recordPhase (cfg : Config) (s : State) (r : RowX) (ta : ℤ) : DailyRecord :=
  if s.holding = true then
    let current_equity := s.cash +
      ((s.base_etf_units + s.alpha_etf_units : ℤ) : ℚ) * r.open_etf +
      (s.entry_fut_price - r.open_fut) * ((s.base_fut_units + s.alpha_fut_units : ℤ) : ℚ) * 10000
    { date := r.date
      position := 1
      trade := ta
      equity := current_equity
      cum_return := current_equity / cfg.initial_capital - 1 }
  else
    { date := r.date
      position := 0
      trade := ta
      equity := s.cash
      cum_return := s.cash / cfg.initial_capital - 1 }

/-- One iteration of the daily loop. -/
def step (cfg : Config) (s : State) (r : RowX) : State × DailyRecord :=
  let s1 := alphaBasePhase cfg s r
  let p := primaryExitPhase cfg s1 r
  let q := primaryEntryPhase cfg p.1 r p.2
  (q.1, recordPhase cfg q.1 r q.2)

/-- The daily loop over a list of prepared rows. -/
def runAux (cfg : Config) (s : State) : List RowX → State × List DailyRecord
  | [] => (s, [])
  | r :: rs =>
    let p := step cfg s r
    let q := runAux cfg p.1 rs
    (q.1, p.2 :: q.2)

/-- The whole simulation: prepare rows, then fold the daily loop from the
initial account state. -/
def runBacktest (cfg : Config) (pred_col : String) (rows : List Row) :
    State × List DailyRecord :=
  runAux cfg (initState cfg) (prepRows cfg pred_col rows)

/-! ## Performance evaluator (section 5/6 of the source) -/

/-- `Series.pct_change` on the tail: successive ratios minus one. -/
def pctChangeAux (prev : ℚ) : List ℚ → List ℚ
  | [] => []
  | x :: xs => (x / prev - 1) :: pctChangeAux x xs

/-- `result_df["equity"].pct_change().fillna(0)`. -/
def pctChange : List ℚ → List ℚ
  | [] => []
  | x :: xs => 0 :: pctChangeAux x xs

/-- Running maximum on the tail given the maximum so far. -/
def cummaxAux (m : ℚ) : List ℚ → List ℚ
  | [] => []
  | x :: xs => max m x :: cummaxAux (max m x) xs

/-- `Series.cummax`. -/
def cummax : List ℚ → List ℚ
  | [] => []
  | x :: xs => x :: cummaxAux x xs

/-- Sum of a rational list. -/
def listSum (l : List ℚ) : ℚ := l.foldl (· + ·) 0

/-- `Series.mean`. -/
def meanQ (l : List ℚ) : ℚ := listSum l / (l.length : ℚ)

/-- Sample variance with `ddof = 1`, the square of `Series.std`. -/
def sampleVar (l : List ℚ) : ℚ :=
  let m := meanQ l
  listSum (l.map fun x => (x - m) ^ 2) / ((l.length : ℚ) - 1)

/-- `Series.std` (ddof 1): `NaN` (= `none`) on fewer than two points,
otherwise the square root of the sample variance, taken by the abstract
square-root function `sqrtF`. -/
def stdOptOf (sqrtF : ℚ → ℚ) (l : List ℚ) : Option ℚ :=
  if 2 ≤ l.length then some (sqrtF (sampleVar l)) else none

/-- The Sharpe block: `NaN != 0` is true in Python, so a `NaN` standard
deviation flows into the quotient and yields a `NaN` Sharpe ratio; a
standard deviation of exactly zero yields `0.0`. -/
def sharpeOf (sqrtF : ℚ → ℚ) (rets : List ℚ) : Option ℚ :=
  match stdOptOf sqrtF rets with
  | none => none
  | some sd => if sd ≠ 0 then some (meanQ rets / sd * sqrtF 252) else some 0

/-- `Series.min` of a nonempty series (0 on the empty one, unused). -/
def listMin : List ℚ → ℚ
  | [] => 0
  | x :: xs => xs.foldl min x

/-- `abs(drawdown.min()) if not drawdown.empty else 0.0`. -/
def maxDrawdownOf (equities : List ℚ) : ℚ :=
  match equities with
  | [] => 0
  | _ :: _ => |listMin (List.zipWith (fun e m => e / m - 1) equities (cummax equities))|

/-- Keys of the `metrics` dict literal returned by the source, in order. -/
def metricsKeys : List String :=
  ["annual_return", "max_drawdown", "sharpe_ratio", "calmar_ratio", "win_rate",
   "total_trades"]

/-- `total_return = final equity / initial capital - 1` (the local variable
of section 6 of the source; on the nonempty ledgers where it is reached,
`getLastD` is the frame's last equity). -/
def totalReturnOf (initial_capital : ℚ) (recs : List DailyRecord) : ℚ :=
  (recs.getLastD default).equity / initial_capital - 1

/-- `annual_return = (1 + total_return) ** (252 / trade_days) - 1 if
trade_days > 0 else 0.0`, with the float power abstracted as `powF`. -/
def annualReturnOf (powF : ℚ → ℚ → ℚ) (initial_capital : ℚ)
    (recs : List DailyRecord) : ℚ :=
  if 0 < recs.length then
    powF (1 + totalReturnOf initial_capital recs) (252 / (recs.length : ℚ)) - 1
  else 0

/-- The Calmar block: `annual_return / max_drawdown if max_drawdown > 1e-8
else float('nan')`. -/
def calmarOf (annual mdd : ℚ) : Option ℚ :=
  if 1/100000000 < mdd then some (annual / mdd) else none

/-- The win-rate block: `win_trades / total_trades if total_trades > 0 else
float('nan')`. -/
def winRateOf (pnls : List ℚ) : Option ℚ :=
  if 0 < pnls.length then
    some ((pnls.countP (fun p => decide (0 < p)) : ℚ) / (pnls.length : ℚ))
  else none

/-- The `metrics` dict literal of section 6 of the source, in key order. -/
def computeMetricsList (powF : ℚ → ℚ → ℚ) (sqrtF : ℚ → ℚ) (initial_capital : ℚ)
    (recs : List DailyRecord) (pnls : List ℚ) : List (String × Option ℚ) :=
  [("annual_return", some (annualReturnOf powF initial_capital recs)),
    ("max_drawdown", some (maxDrawdownOf (recs.map (·.equity)))),
    ("sharpe_ratio", sharpeOf sqrtF (pctChange (recs.map (·.equity)))),
    ("calmar_ratio", calmarOf (annualReturnOf powF initial_capital recs)
      (maxDrawdownOf (recs.map (·.equity)))),
    ("win_rate", winRateOf pnls),
    ("total_trades", some ((pnls.length : ℚ)))]

/-- Sections 5–6 of `backtest_spread_strategy`: build the result table's
return column and reduce it to the metrics dict.  On an empty ledger the
source raises (`result_df["equity"]` on an empty frame is a `KeyError`),
modelled as `Except.error`.  `powF` abstracts the float power `**`. -/
def computeMetrics (powF : ℚ → ℚ → ℚ) (sqrtF : ℚ → ℚ) (initial_capital : ℚ)
    (recs : List DailyRecord) (pnls : List ℚ) :
    Except String (List (String × Option ℚ)) :=
  match recs.getLast? with
  | none => Except.error "KeyError: equity"
  | some _ => Except.ok (computeMetricsList powF sqrtF initial_capital recs pnls)

/-- The whole exported function: ledger, metrics and realized trade list. -/
def backtest_spread_strategy (powF : ℚ → ℚ → ℚ) (sqrtF : ℚ → ℚ) (cfg : Config)
    (pred_col : String) (rows : List Row) :
    List DailyRecord × Except String (List (String × Option ℚ)) × List ℚ :=
  let res := runBacktest cfg pred_col rows
  (res.2, computeMetrics powF sqrtF cfg.initial_capital res.2 res.1.realized_pnls,
    res.1.realized_pnls)

/-! ## Theorems -/

theorem rnd_nearest (q : ℚ) (z : ℤ) : |((rnd q : ℤ) : ℚ) - q| ≤ |(z : ℚ) - q| := by
  have hf0 : ((⌊q⌋ : ℤ) : ℚ) ≤ q := Int.floor_le q
  have hf1 : q < ((⌊q⌋ : ℤ) : ℚ) + 1 := Int.lt_floor_add_one q
  have hz1 : (z : ℚ) - q ≤ |(z : ℚ) - q| := le_abs_self _
  have hz2 : q - (z : ℚ) ≤ |(z : ℚ) - q| := by
    rw [abs_sub_comm]; exact le_abs_self _
  have hz : (z : ℚ) ≤ ((⌊q⌋ : ℤ) : ℚ) ∨ ((⌊q⌋ : ℤ) : ℚ) + 1 ≤ (z : ℚ) := by
    rcases le_or_lt z ⌊q⌋ with h | h
    · exact Or.inl (by exact_mod_cast h)
    · exact Or.inr (by exact_mod_cast h)
  unfold rnd
  split_ifs with h1 h2 h3 <;> rw [abs_le] <;> constructor <;>
    rcases hz with h | h <;> push_cast <;> linarith

theorem getD_map_of_lt {α β : Type} [Inhabited α] [Inhabited β]
    (l : List α) (g : α → β) (i : ℕ) (h : i < l.length) :
    (l.map g).getD i default = g (l.getD i default) := by
  rw [List.getD_eq_getElem?_getD, List.getElem?_map, List.getElem?_eq_getElem h,
    List.getD_eq_getElem?_getD, List.getElem?_eq_getElem h]
  rfl

/-- **C3.** The Hedge Ratio Engine returns, for every day, the nearest
integer (half to even) of `(close_etf * etf_duration * 0.0001) /
((ctd_dv01 / conversion_factor) * 10000)`; the rounded value is indeed a
nearest integer; and the day's output is a pure function of that day's row
and the configuration alone (running the engine on the single row gives the
same output, so no state is carried across days). -/
theorem C3_hedge_ratio_formula (rows : List PriceRow) (dur ctd cf : ℚ) (i : ℕ)
    (h : i < rows.length) :
    ((calculate_dv01_metrics rows dur ctd cf).getD i default).ratioInt =
      rnd (((rows.getD i default).close_etf * dur * (1/10000)) / ((ctd / cf) * 10000)) ∧
    (∀ z : ℤ,
      |((((calculate_dv01_metrics rows dur ctd cf).getD i default).ratioInt : ℚ)) -
        ((rows.getD i default).close_etf * dur * (1/10000)) / ((ctd / cf) * 10000)| ≤
      |((z : ℚ)) -
        ((rows.getD i default).close_etf * dur * (1/10000)) / ((ctd / cf) * 10000)|) ∧
    (calculate_dv01_metrics rows dur ctd cf).getD i default =
      (calculate_dv01_metrics [rows.getD i default] dur ctd cf).getD 0 default := by
  have key : (calculate_dv01_metrics rows dur ctd cf).getD i default =
      (calculate_dv01_metrics [rows.getD i default] dur ctd cf).getD 0 default := by
    unfold calculate_dv01_metrics
    rw [getD_map_of_lt rows _ i h]
    rfl
  refine ⟨?_, ?_, key⟩
  · rw [key]; rfl
  · intro z
    rw [key]
    exact rnd_nearest _ z

/-- Witness for C3 at a one-row input. -/
theorem C3_hedge_ratio_formula_witness :
    (0 : ℕ) < ([(⟨0, 100, 10⟩ : PriceRow)] : List PriceRow).length ∧
    ((calculate_dv01_metrics [(⟨0, 100, 10⟩ : PriceRow)] 50000 (42/1000) (21/25)).getD 0
        default).ratioInt =
      rnd (((([(⟨0, 100, 10⟩ : PriceRow)] : List PriceRow).getD 0 default).close_etf *
        50000 * (1/10000)) / (((42/1000) / (21/25)) * 10000)) :=
  ⟨by decide, (C3_hedge_ratio_formula [⟨0, 100, 10⟩] 50000 (42/1000) (21/25) 0 (by decide)).1⟩

/-- **C2.** The trading signal is the raw prediction series shifted backward
by `N` rows, `N` parsed from a trailing `"<digits>d"` in the column name
(`N = 0` when absent); beyond the end of the series the signal is absent
(`none`, the model of `NaN`), and an absent signal is treated as neither
strictly positive nor below the alpha entry threshold, so the entry phase
takes no action on it. -/
theorem C2_signal_alignment (cfg : Config) (pred_col : String) (rows : List Row)
    (i : ℕ) (h : i < rows.length) :
    ((prepRows cfg pred_col rows).getD i default).sig =
      (if i + parseShift pred_col < rows.length
        then some ((rows.getD (i + parseShift pred_col) default).pred) else none) ∧
    sigPos none = false ∧
    (∀ t : ℚ, sigBelow none t = false) ∧
    (∀ (s : State) (r : RowX) (ta : ℤ), r.sig = none →
      primaryEntryPhase cfg s r ta = (s, ta)) := by
  refine ⟨?_, rfl, fun t => rfl, ?_⟩
  · unfold prepRows
    rw [List.getD_eq_getElem?_getD, List.getElem?_map, List.getElem?_range h]
    rfl
  · intro s r ta hsig
    unfold primaryEntryPhase
    rw [if_neg]
    rw [hsig]
    simp [sigPos]

/-- Concrete two-day scenario: hedge ratio 1 both days, positive signal both
days, stop-gain hit on day 2 with the signal still positive (close plus
same-day re-entry). -/
def cfg1 : Config :=
  { initial_capital := 1000
    margin_rate := 0
    tick_etf := 0
    tick_fut := 0
    etf_duration := 50000
    conversion_factor := 21/25
    stop_gain := 1/100
    stop_loss := 1/100
    alpha_entry_threshold := -1 }

def rows1 : List Row :=
  [{ date := 0, open_etf := 100, open_fut := 10, close_etf := 100, close_fut := 10, pred := 1 },
   { date := 1, open_etf := 102, open_fut := 10, close_etf := 100, close_fut := 10, pred := 1 }]

/-- Witness for C2 at a shifted one-day-horizon column name. -/
theorem C2_signal_alignment_witness :
    (0 : ℕ) < rows1.length ∧
    ((prepRows cfg1 "x1d" rows1).getD 0 default).sig =
      (if 0 + parseShift "x1d" < rows1.length
        then some ((rows1.getD (0 + parseShift "x1d") default).pred) else none) :=
  ⟨by decide, (C2_signal_alignment cfg1 "x1d" rows1 0 (by decide)).1⟩

/-- **C1, counterexample.**  On `cfg1`/`rows1` the day-2 record has trade
flag 1 while the day-1 record already has position flag 1: a stop-gain close
followed by a same-day re-entry records `trade = 1` without a 0→1 position
transition, refuting the claim as stated. -/
theorem C1_counterexample :
    ((runBacktest cfg1 "pred" rows1).2.getD 1 default).trade = 1 ∧
    ((runBacktest cfg1 "pred" rows1).2.getD 0 default).position = 1 ∧
    ((runBacktest cfg1 "pred" rows1).2.getD 1 default).position = 1 ∧
    (runBacktest cfg1 "pred" rows1).2.length = 2 := by
  have hN : parseShift "pred" = 0 := by decide
  norm_num [runBacktest, prepRows, hN, calculate_dv01_metrics, rnd, runAux, step,
    alphaBasePhase, baseBuildSub, alphaAccumSub, alphaExitSub, primaryExitPhase,
    primaryEntryPhase, recordPhase, initState, cfg1, rows1, sigPos, sigBelow, optTruthy,
    firstPass, secondPass, requiredCapital, availableFunds]

/-- **C5.** While holding (and with a nonzero entry-equity base), the primary
position is closed on a day if and only if the floating return relative to
the position's own entry equity is `≥ stop_gain`, or `≤ -stop_loss`, or the
day's signal is not strictly positive; in particular a return exactly equal
to `stop_gain` closes (the comparison is inclusive). -/
theorem C5_primary_exit_iff (cfg : Config) (s : State) (r : RowX)
    (hh : s.holding = true) (he : s.entry_equity ≠ 0) :
    (((primaryExitPhase cfg s r).1.holding = false) ↔
      (cfg.stop_gain ≤ ((s.cash + s.n_etf * r.open_etf +
          (s.entry_fut_price - r.open_fut) * (s.n_fut : ℚ) * 10000) -
          s.entry_equity) / s.entry_equity ∨
        ((s.cash + s.n_etf * r.open_etf +
          (s.entry_fut_price - r.open_fut) * (s.n_fut : ℚ) * 10000) -
          s.entry_equity) / s.entry_equity ≤ -cfg.stop_loss ∨
        ¬ sigPos r.sig = true)) ∧
    (((s.cash + s.n_etf * r.open_etf +
        (s.entry_fut_price - r.open_fut) * (s.n_fut : ℚ) * 10000) -
        s.entry_equity) / s.entry_equity = cfg.stop_gain →
      (primaryExitPhase cfg s r).1.holding = false) := by
  have hmain : ((primaryExitPhase cfg s r).1.holding = false) ↔
      (cfg.stop_gain ≤ ((s.cash + s.n_etf * r.open_etf +
          (s.entry_fut_price - r.open_fut) * (s.n_fut : ℚ) * 10000) -
          s.entry_equity) / s.entry_equity ∨
        ((s.cash + s.n_etf * r.open_etf +
          (s.entry_fut_price - r.open_fut) * (s.n_fut : ℚ) * 10000) -
          s.entry_equity) / s.entry_equity ≤ -cfg.stop_loss ∨
        ¬ sigPos r.sig = true) := by
    unfold primaryExitPhase
    rw [if_pos hh]
    simp only [if_pos he]
    split_ifs with hc
    · simpa using hc
    · simpa [hh] using hc
  refine ⟨hmain, fun hg => hmain.mpr (Or.inl (le_of_eq hg.symm))⟩

/-- A held state whose floating return at `r5`'s open sits exactly on the
stop-gain boundary of `cfg1` (return `1/100 = stop_gain`). -/
def s5 : State :=
  { initState cfg1 with
    holding := true
    cash := 110
    n_etf := 9
    n_fut := 9
    entry_equity := 1000
    entry_etf_price := 100
    entry_fut_price := 10 }

def r5 : RowX :=
  { date := 1, open_etf := 100, open_fut := 10, close_etf := 100,
    close_fut := 10, hr := 1, sig := some 1 }

/-- Witness for C5: a held state exactly at the stop-gain boundary closes. -/
theorem C5_primary_exit_iff_witness :
    s5.holding = true ∧ s5.entry_equity ≠ 0 ∧
      (primaryExitPhase cfg1 s5 r5).1.holding = false :=
  ⟨rfl, by norm_num [s5, initState, cfg1],
    (C5_primary_exit_iff cfg1 s5 r5 rfl (by norm_num [s5, initState, cfg1])).2
      (by norm_num [s5, r5, initState, cfg1])⟩

/-- **C6.** On an entry attempt (flat, positive signal, valid price and
ratio): if the first-pass required capital exceeds the reserved funds (and
is positive, so the scale-down branch runs), the counts are scaled down
proportionally exactly once; if the rescaled required capital still exceeds
the reserved funds, the entry is abandoned — both counts are set to zero and
nothing else in the state changes (no cash debit, the engine stays flat, the
trade action is unchanged, no error is raised: the phase is total and the
loop simply continues). -/
theorem C6_infeasible_abandon (cfg : Config) (s : State) (r : RowX) (ta : ℤ)
    (hh : s.holding = false) (hsig : sigPos r.sig = true)
    (hoe : 0 < r.open_etf) (hhr : 0 < r.hr)
    (h1 : availableFunds s < requiredCapital cfg r (firstPass s r).1 (firstPass s r).2)
    (h1p : 0 < requiredCapital cfg r (firstPass s r).1 (firstPass s r).2)
    (h2 : availableFunds s <
      requiredCapital cfg r
        (secondPass s r (firstPass s r).1
          (requiredCapital cfg r (firstPass s r).1 (firstPass s r).2)).1
        (secondPass s r (firstPass s r).1
          (requiredCapital cfg r (firstPass s r).1 (firstPass s r).2)).2) :
    primaryEntryPhase cfg s r ta = ({ s with n_etf := 0, n_fut := 0 }, ta) := by
  unfold primaryEntryPhase
  rw [if_pos ⟨hh, hsig⟩, if_neg (by push_neg; exact ⟨hoe, hhr⟩)]
  simp only [if_pos (And.intro h1 h1p), if_pos h2]
  norm_num

/-- Witness data for C6: one futures lot's margin alone exceeds the
reserved funds, so even the rescaled position is infeasible. -/
def cfg6 : Config := { cfg1 with margin_rate := 1/10 }

def s6 : State := initState cfg6

def r6 : RowX :=
  { date := 0, open_etf := 1, open_fut := 1, close_etf := 1, close_fut := 1,
    hr := 1, sig := some 1 }

/-- Witness for C6: the abandoned entry leaves the state unchanged apart
from the zeroed counts. -/
theorem C6_infeasible_abandon_witness :
    primaryEntryPhase cfg6 s6 r6 0 = ({ s6 with n_etf := 0, n_fut := 0 }, 0) :=
  C6_infeasible_abandon cfg6 s6 r6 0 rfl rfl
    (by norm_num [r6]) (by norm_num [r6])
    (by norm_num [availableFunds, requiredCapital, firstPass, s6, r6, cfg6, cfg1,
      initState, rnd])
    (by norm_num [availableFunds, requiredCapital, firstPass, s6, r6, cfg6, cfg1,
      initState, rnd])
    (by norm_num [availableFunds, requiredCapital, firstPass, secondPass, s6, r6,
      cfg6, cfg1, initState, rnd])

theorem alphaBasePhase_holding (cfg : Config) (s : State) (r : RowX) :
    (alphaBasePhase cfg s r).holding = s.holding := by
  unfold alphaBasePhase alphaExitSub alphaAccumSub baseBuildSub
  dsimp only
  split_ifs <;> rfl

theorem primaryExitPhase_cases (cfg : Config) (s : State) (r : RowX) :
    ((primaryExitPhase cfg s r).2 = 0 ∧ (primaryExitPhase cfg s r).1 = s) ∨
    ((primaryExitPhase cfg s r).2 = -1 ∧ s.holding = true ∧
      (primaryExitPhase cfg s r).1.holding = false) := by
  unfold primaryExitPhase
  dsimp only
  split_ifs <;> first
    | exact Or.inl ⟨rfl, rfl⟩
    | exact Or.inr ⟨rfl, by assumption, rfl⟩

theorem primaryEntryPhase_cases (cfg : Config) (s : State) (r : RowX) (ta : ℤ) :
    ((primaryEntryPhase cfg s r ta).2 = ta ∧
      (primaryEntryPhase cfg s r ta).1.holding = s.holding) ∨
    ((primaryEntryPhase cfg s r ta).2 = 1 ∧
      (primaryEntryPhase cfg s r ta).1.holding = true) := by
  unfold primaryEntryPhase
  dsimp only
  split_ifs <;> simp

theorem recordPhase_fields (cfg : Config) (s : State) (r : RowX) (ta : ℤ) :
    (recordPhase cfg s r ta).position = (if s.holding = true then 1 else 0) ∧
    (recordPhase cfg s r ta).trade = ta := by
  unfold recordPhase
  dsimp only
  split_ifs <;> exact ⟨rfl, rfl⟩

theorem step_eq (cfg : Config) (s : State) (r : RowX) :
    step cfg s r =
      ((primaryEntryPhase cfg (primaryExitPhase cfg (alphaBasePhase cfg s r) r).1 r
          (primaryExitPhase cfg (alphaBasePhase cfg s r) r).2).1,
        recordPhase cfg
          (primaryEntryPhase cfg (primaryExitPhase cfg (alphaBasePhase cfg s r) r).1 r
            (primaryExitPhase cfg (alphaBasePhase cfg s r) r).2).1 r
          (primaryEntryPhase cfg (primaryExitPhase cfg (alphaBasePhase cfg s r) r).1 r
            (primaryExitPhase cfg (alphaBasePhase cfg s r) r).2).2) := rfl

theorem step_flags (cfg : Config) (s : State) (r : RowX) :
    ((step cfg s r).2.position = if (step cfg s r).1.holding = true then 1 else 0) ∧
    ((step cfg s r).2.trade = -1 ∨ (step cfg s r).2.trade = 0 ∨ (step cfg s r).2.trade = 1) ∧
    ((step cfg s r).2.trade = 1 → (step cfg s r).1.holding = true) ∧
    ((step cfg s r).2.trade = -1 → s.holding = true ∧ (step cfg s r).1.holding = false) := by
  obtain ⟨s1, hs1⟩ : ∃ s1, s1 = alphaBasePhase cfg s r := ⟨_, rfl⟩
  obtain ⟨p, hp⟩ : ∃ p, p = primaryExitPhase cfg s1 r := ⟨_, rfl⟩
  obtain ⟨q, hq⟩ : ∃ q, q = primaryEntryPhase cfg p.1 r p.2 := ⟨_, rfl⟩
  have hstep : step cfg s r = (q.1, recordPhase cfg q.1 r q.2) := by
    rw [step_eq, hq, hp, hs1]
  have hs1h : s1.holding = s.holding := by
    rw [hs1]; exact alphaBasePhase_holding cfg s r
  have hexit := primaryExitPhase_cases cfg s1 r
  rw [← hp] at hexit
  have hentry := primaryEntryPhase_cases cfg p.1 r p.2
  rw [← hq] at hentry
  have hrec := recordPhase_fields cfg q.1 r q.2
  rw [hstep]
  dsimp only
  refine ⟨hrec.1, ?_, ?_, ?_⟩
  · rw [hrec.2]
    rcases hentry with ⟨h, _⟩ | ⟨h, _⟩
    · rcases hexit with ⟨h0, _⟩ | ⟨h0, _, _⟩
      · rw [h, h0]; exact Or.inr (Or.inl rfl)
      · rw [h, h0]; exact Or.inl rfl
    · rw [h]; exact Or.inr (Or.inr rfl)
  · intro h1
    rw [hrec.2] at h1
    rcases hentry with ⟨h, hhold⟩ | ⟨h, hhold⟩
    · exfalso
      rw [h] at h1
      rcases hexit with ⟨h0, _⟩ | ⟨h0, _, _⟩ <;> rw [h0] at h1 <;> omega
    · exact hhold
  · intro h1
    rw [hrec.2] at h1
    rcases hentry with ⟨h, hhold⟩ | ⟨h, hhold⟩
    · rw [h] at h1
      rcases hexit with ⟨h0, hs⟩ | ⟨h0, hprev, hafter⟩
      · rw [h0] at h1; omega
      · rw [hs1h] at hprev
        exact ⟨hprev, by rw [hhold]; exact hafter⟩
    · exfalso
      rw [h] at h1
      omega

/-- Fold-level flags invariant: in the `trade = -1` clause, the reference
state for day 0 is the state entering the window. -/
theorem runAux_flags (cfg : Config) :
    ∀ (rs : List RowX) (s : State) (i : ℕ),
    i < (runAux cfg s rs).2.length →
    (((runAux cfg s rs).2.getD i default).position = 0 ∨
      ((runAux cfg s rs).2.getD i default).position = 1) ∧
    (((runAux cfg s rs).2.getD i default).trade = -1 ∨
      ((runAux cfg s rs).2.getD i default).trade = 0 ∨
      ((runAux cfg s rs).2.getD i default).trade = 1) ∧
    (((runAux cfg s rs).2.getD i default).trade = 1 →
      ((runAux cfg s rs).2.getD i default).position = 1) ∧
    (((runAux cfg s rs).2.getD i default).trade = -1 →
      ((runAux cfg s rs).2.getD i default).position = 0 ∧
      (if i = 0 then s.holding = true
        else ((runAux cfg s rs).2.getD (i - 1) default).position = 1)) := by
  intro rs
  induction rs with
  | nil => intro s i hi; simp [runAux] at hi
  | cons r rest ih =>
    intro s i hi
    have hflags := step_flags cfg s r
    have hrun : (runAux cfg s (r :: rest)).2 =
        (step cfg s r).2 :: (runAux cfg (step cfg s r).1 rest).2 := rfl
    rw [hrun] at hi
    rw [hrun]
    match i with
    | 0 =>
      simp only [List.getD_cons_zero]
      refine ⟨?_, hflags.2.1, ?_, ?_⟩
      · rw [hflags.1]; split_ifs <;> simp
      · intro h1; rw [hflags.1, if_pos (hflags.2.2.1 h1)]
      · intro h1
        obtain ⟨hprev, hafter⟩ := hflags.2.2.2 h1
        refine ⟨?_, ?_⟩
        · rw [hflags.1, hafter]; simp
        · simpa using hprev
    | Nat.succ j =>
      simp only [List.getD_cons_succ]
      rw [List.length_cons] at hi
      have hj : j < (runAux cfg (step cfg s r).1 rest).2.length := by
        simpa using Nat.lt_of_succ_lt_succ hi
      have hih := ih (step cfg s r).1 j hj
      refine ⟨hih.1, hih.2.1, hih.2.2.1, ?_⟩
      intro h1
      obtain ⟨hpos, hprev⟩ := hih.2.2.2 h1
      refine ⟨hpos, ?_⟩
      have hne : ¬ (j + 1 = 0) := Nat.succ_ne_zero j
      rw [if_neg hne]
      simp only [Nat.add_sub_cancel, Nat.succ_sub_one]
      match j with
      | 0 =>
        simp only [eq_self_iff_true, if_true] at hprev
        simp only [List.getD_cons_zero]
        rw [hflags.1, if_pos hprev]
      | Nat.succ k =>
        rw [if_neg (Nat.succ_ne_zero k)] at hprev
        simp only [List.getD_cons_succ]
        simpa using hprev
/-- **C1, amended.**  Every ledger record has position flag in `{0,1}` and
trade flag in `{-1,0,1}`; a trade flag of `-1` occurs only after a held day
(previous record's position flag 1, never on the first day) and leaves the
position flag at 0; a trade flag of `1` leaves the position flag at 1 — but
the previous day's position flag can already be 1 (stop-triggered close with
same-day re-entry), so the claimed 0→1 transition does not hold in general
for trade flag 1. -/
theorem C1_amended_flags (cfg : Config) (pred_col : String) (rows : List Row)
    (i : ℕ) (hi : i < (runBacktest cfg pred_col rows).2.length) :
    (((runBacktest cfg pred_col rows).2.getD i default).position = 0 ∨
      ((runBacktest cfg pred_col rows).2.getD i default).position = 1) ∧
    (((runBacktest cfg pred_col rows).2.getD i default).trade = -1 ∨
      ((runBacktest cfg pred_col rows).2.getD i default).trade = 0 ∨
      ((runBacktest cfg pred_col rows).2.getD i default).trade = 1) ∧
    (((runBacktest cfg pred_col rows).2.getD i default).trade = 1 →
      ((runBacktest cfg pred_col rows).2.getD i default).position = 1) ∧
    (((runBacktest cfg pred_col rows).2.getD i default).trade = -1 →
      ((runBacktest cfg pred_col rows).2.getD i default).position = 0 ∧ 0 < i ∧
      ((runBacktest cfg pred_col rows).2.getD (i - 1) default).position = 1) := by
  have h := runAux_flags cfg (prepRows cfg pred_col rows) (initState cfg) i hi
  refine ⟨h.1, h.2.1, h.2.2.1, ?_⟩
  intro h1
  obtain ⟨hpos, hprev⟩ := h.2.2.2 h1
  refine ⟨hpos, ?_, ?_⟩
  · by_contra hz
    have hz0 : i = 0 := by omega
    rw [if_pos hz0] at hprev
    exact absurd hprev (by simp [initState])
  · have hz0 : ¬ i = 0 := by
      intro hz0
      rw [if_pos hz0] at hprev
      exact absurd hprev (by simp [initState])
    rwa [if_neg hz0] at hprev

/-- Witness for C1 (amended) on a one-day run. -/
theorem C1_amended_flags_witness :
    (0 : ℕ) < (runBacktest cfg1 "pred" [rows1.getD 0 default]).2.length ∧
    (((runBacktest cfg1 "pred" [rows1.getD 0 default]).2.getD 0 default).position = 0 ∨
      ((runBacktest cfg1 "pred" [rows1.getD 0 default]).2.getD 0 default).position = 1) :=
  ⟨by simp [runBacktest, runAux, prepRows],
    (C1_amended_flags cfg1 "pred" [rows1.getD 0 default] 0
      (by simp [runBacktest, runAux, prepRows])).1⟩

/-- Inductive invariant for the alpha/base book sizes: the alpha size is a
nonnegative multiple of 100, the base size is 0 or 1000, the cap holds, and
an unbuilt base has size 0. -/
def AlphaInv (s : State) : Prop :=
  s.alpha_etf_units % 100 = 0 ∧ 0 ≤ s.alpha_etf_units ∧
  (s.base_etf_units = 0 ∨ s.base_etf_units = 1000) ∧
  s.alpha_etf_units ≤ 2 * s.base_etf_units ∧
  (s.base_built = false → s.base_etf_units = 0)

theorem baseBuildSub_inv (s : State) (r : RowX) (h : AlphaInv s) :
    AlphaInv (baseBuildSub s r) := by
  obtain ⟨h1, h2, h3, h4, h5⟩ := h
  unfold baseBuildSub AlphaInv
  split_ifs with hc
  · dsimp only
    have hb0 : s.base_etf_units = 0 := h5 hc.1
    rw [hb0] at h4
    refine ⟨h1, h2, Or.inr rfl, by omega, by simp⟩
  · exact ⟨h1, h2, h3, h4, h5⟩

theorem alphaAccumSub_inv (cfg : Config) (s : State) (r : RowX) (h : AlphaInv s) :
    AlphaInv (alphaAccumSub cfg s r) := by
  obtain ⟨h1, h2, h3, h4, h5⟩ := h
  unfold alphaAccumSub AlphaInv
  dsimp only
  split_ifs with hc hlt
  · dsimp only
    refine ⟨by omega, by omega, h3, ?_, h5⟩
    rcases h3 with hb | hb <;> rw [hb] at hlt ⊢ <;> omega
  · exact ⟨h1, h2, h3, h4, h5⟩
  · exact ⟨h1, h2, h3, h4, h5⟩

theorem alphaExitSub_inv (cfg : Config) (s : State) (r : RowX) (h : AlphaInv s) :
    AlphaInv (alphaExitSub cfg s r) := by
  obtain ⟨h1, h2, h3, h4, h5⟩ := h
  unfold alphaExitSub AlphaInv
  dsimp only
  split_ifs with hc hstop
  · dsimp only
    exact ⟨by omega, by omega, h3,
      by rcases h3 with hb | hb <;> rw [hb] <;> omega, h5⟩
  · exact ⟨h1, h2, h3, h4, h5⟩
  · exact ⟨h1, h2, h3, h4, h5⟩

theorem primaryExitPhase_book_fields (cfg : Config) (s : State) (r : RowX) :
    (primaryExitPhase cfg s r).1.alpha_etf_units = s.alpha_etf_units ∧
    (primaryExitPhase cfg s r).1.base_etf_units = s.base_etf_units ∧
    (primaryExitPhase cfg s r).1.base_built = s.base_built := by
  unfold primaryExitPhase
  dsimp only
  split_ifs <;> exact ⟨rfl, rfl, rfl⟩

theorem primaryEntryPhase_book_fields (cfg : Config) (s : State) (r : RowX) (ta : ℤ) :
    (primaryEntryPhase cfg s r ta).1.alpha_etf_units = s.alpha_etf_units ∧
    (primaryEntryPhase cfg s r ta).1.base_etf_units = s.base_etf_units ∧
    (primaryEntryPhase cfg s r ta).1.base_built = s.base_built := by
  unfold primaryEntryPhase
  dsimp only
  split_ifs <;> exact ⟨rfl, rfl, rfl⟩

theorem AlphaInv_of_fields (s t : State) (h : AlphaInv s)
    (h1 : t.alpha_etf_units = s.alpha_etf_units)
    (h2 : t.base_etf_units = s.base_etf_units)
    (h3 : t.base_built = s.base_built) : AlphaInv t := by
  unfold AlphaInv at h ⊢
  rw [h1, h2, h3]
  exact h

theorem step_inv (cfg : Config) (s : State) (r : RowX) (h : AlphaInv s) :
    AlphaInv (step cfg s r).1 := by
  rw [step_eq]
  dsimp only
  have ha : AlphaInv (alphaBasePhase cfg s r) :=
    alphaExitSub_inv cfg _ r (alphaAccumSub_inv cfg _ r (baseBuildSub_inv s r h))
  have hx := primaryExitPhase_book_fields cfg (alphaBasePhase cfg s r) r
  have hb : AlphaInv (primaryExitPhase cfg (alphaBasePhase cfg s r) r).1 :=
    AlphaInv_of_fields _ _ ha hx.1 hx.2.1 hx.2.2
  have hy := primaryEntryPhase_book_fields cfg
    (primaryExitPhase cfg (alphaBasePhase cfg s r) r).1 r
    (primaryExitPhase cfg (alphaBasePhase cfg s r) r).2
  exact AlphaInv_of_fields _ _ hb hy.1 hy.2.1 hy.2.2

theorem runAux_inv (cfg : Config) :
    ∀ (rs : List RowX) (s : State), AlphaInv s → AlphaInv (runAux cfg s rs).1 := by
  intro rs
  induction rs with
  | nil => intro s h; exact h
  | cons r rest ih => intro s h; exact ih (step cfg s r).1 (step_inv cfg s r h)

theorem initState_inv (cfg : Config) : AlphaInv (initState cfg) := by
  unfold AlphaInv initState
  norm_num

/-- **C4.** At the end of every simulated day (every prefix of the prepared
row stream), the AlphaBook's ETF unit count is at most twice the BaseBook's
ETF unit count; in particular, while the base book is unbuilt the alpha book
is exactly zero. -/
theorem C4_alpha_cap (cfg : Config) (pred_col : String) (rows : List Row) (n : ℕ) :
    (runAux cfg (initState cfg) ((prepRows cfg pred_col rows).take n)).1.alpha_etf_units ≤
      2 * (runAux cfg (initState cfg) ((prepRows cfg pred_col rows).take n)).1.base_etf_units ∧
    ((runAux cfg (initState cfg) ((prepRows cfg pred_col rows).take n)).1.base_built = false →
      (runAux cfg (initState cfg) ((prepRows cfg pred_col rows).take n)).1.alpha_etf_units = 0) := by
  have h := runAux_inv cfg ((prepRows cfg pred_col rows).take n) (initState cfg)
    (initState_inv cfg)
  obtain ⟨h1, h2, h3, h4, h5⟩ := h
  refine ⟨h4, fun hb => ?_⟩
  have := h5 hb
  omega

/-- Key list of a metrics result (`[]` for the error case). -/
def keysOfE (e : Except String (List (String × Option ℚ))) : List String :=
  match e with
  | Except.ok m => m.map Prod.fst
  | Except.error _ => []

/-- **C7, counterexample.**  On a concrete completed two-day run the metrics
dict returned by the evaluator has no `total_return` key: its keys are only
`annual_return`, `max_drawdown`, `sharpe_ratio`, `calmar_ratio`, `win_rate`,
`total_trades`. -/
theorem C7_counterexample :
    ("total_return" ∈
      keysOfE (backtest_spread_strategy (fun a _ => a) id cfg1 "pred" rows1).2.1) = False := by
  decide

/-- **C7, amended.**  For every completed (nonempty-ledger) run the metrics
record's keys are exactly `annual_return, max_drawdown, sharpe_ratio,
calmar_ratio, win_rate, total_trades` — `total_return` is not among them —
while the `total_return` quantity is still computed internally as final
equity / initial capital − 1 and determines the `annual_return` entry. -/
theorem C7_amended_metrics (powF : ℚ → ℚ → ℚ) (sqrtF : ℚ → ℚ) (initial : ℚ)
    (recs : List DailyRecord) (pnls : List ℚ) (h : recs ≠ []) :
    ∃ m, computeMetrics powF sqrtF initial recs pnls = Except.ok m ∧
      m.map Prod.fst = metricsKeys ∧
      "total_return" ∉ metricsKeys ∧
      totalReturnOf initial recs = (recs.getLastD default).equity / initial - 1 ∧
      m.lookup "annual_return" =
        some (some (powF (1 + totalReturnOf initial recs) (252 / (recs.length : ℚ)) - 1)) := by
  match recs, h with
  | r0 :: rest, _ =>
    refine ⟨_, rfl, rfl, by decide, rfl, ?_⟩
    have hlk : (computeMetricsList powF sqrtF initial (r0 :: rest) pnls).lookup
        "annual_return" = some (some (annualReturnOf powF initial (r0 :: rest))) := rfl
    rw [hlk]
    unfold annualReturnOf
    rw [if_pos (by simp)]

/-- Witness for C7 (amended) on a concrete one-day ledger. -/
theorem C7_amended_metrics_witness :
    ([(⟨0, 0, 0, 1100, 0⟩ : DailyRecord)] : List DailyRecord) ≠ [] ∧
    ∃ m, computeMetrics (fun a _ => a) id 1000 [(⟨0, 0, 0, 1100, 0⟩ : DailyRecord)] [] =
        Except.ok m ∧ m.map Prod.fst = metricsKeys :=
  ⟨by simp, by
    obtain ⟨m, h1, h2, _, _, _⟩ :=
      C7_amended_metrics (fun a _ => a) id 1000 [(⟨0, 0, 0, 1100, 0⟩ : DailyRecord)] []
        (by simp)
    exact ⟨m, h1, h2⟩⟩

/-- **C8.** Degenerate statistics never abort the evaluation and take defined
fallback values: a standard deviation of exactly zero gives Sharpe `0`; the
Calmar ratio is `annual_return / max_drawdown` exactly when `max_drawdown >
1e-8` and `NaN` (`none`) otherwise; the win rate is (positive trades)/(all
trades) when at least one trade exists and `NaN` (`none`) on zero trades. -/
theorem C8_degenerate_stats (powF : ℚ → ℚ → ℚ) (sqrtF : ℚ → ℚ) (initial : ℚ)
    (recs : List DailyRecord) (pnls : List ℚ) (h : recs ≠ []) :
    ∃ m, computeMetrics powF sqrtF initial recs pnls = Except.ok m ∧
      (stdOptOf sqrtF (pctChange (recs.map (·.equity))) = some 0 →
        m.lookup "sharpe_ratio" = some (some 0)) ∧
      (1/100000000 < maxDrawdownOf (recs.map (·.equity)) →
        m.lookup "calmar_ratio" = some (some (annualReturnOf powF initial recs /
          maxDrawdownOf (recs.map (·.equity))))) ∧
      (¬ 1/100000000 < maxDrawdownOf (recs.map (·.equity)) →
        m.lookup "calmar_ratio" = some none) ∧
      (pnls ≠ [] → m.lookup "win_rate" =
        some (some ((pnls.countP (fun p => decide (0 < p)) : ℚ) / (pnls.length : ℚ)))) ∧
      (pnls = [] → m.lookup "win_rate" = some none) := by
  match recs, h with
  | r0 :: rest, _ =>
    refine ⟨_, rfl, ?_, ?_, ?_, ?_, ?_⟩
    · intro hstd
      have hlk : (computeMetricsList powF sqrtF initial (r0 :: rest) pnls).lookup
          "sharpe_ratio" = some (sharpeOf sqrtF (pctChange ((r0 :: rest).map (·.equity)))) :=
        rfl
      rw [hlk, sharpeOf, hstd]
      norm_num
    · intro hmd
      have hlk : (computeMetricsList powF sqrtF initial (r0 :: rest) pnls).lookup
          "calmar_ratio" = some (calmarOf (annualReturnOf powF initial (r0 :: rest))
            (maxDrawdownOf ((r0 :: rest).map (·.equity)))) := rfl
      rw [hlk, calmarOf, if_pos hmd]
    · intro hmd
      have hlk : (computeMetricsList powF sqrtF initial (r0 :: rest) pnls).lookup
          "calmar_ratio" = some (calmarOf (annualReturnOf powF initial (r0 :: rest))
            (maxDrawdownOf ((r0 :: rest).map (·.equity)))) := rfl
      rw [hlk, calmarOf, if_neg hmd]
    · intro hp
      have hlen : 0 < pnls.length := List.length_pos.mpr hp
      have hlk : (computeMetricsList powF sqrtF initial (r0 :: rest) pnls).lookup
          "win_rate" = some (winRateOf pnls) := rfl
      rw [hlk, winRateOf, if_pos hlen]
    · intro hp
      subst hp
      have hlk : (computeMetricsList powF sqrtF initial (r0 :: rest) []).lookup
          "win_rate" = some (winRateOf []) := rfl
      rw [hlk]
      rfl

/-- Witness for C8: two flat days and no trades give Sharpe 0 and `NaN`
Calmar and win rate. -/
theorem C8_degenerate_stats_witness :
    ([(⟨0, 0, 0, 1000, 0⟩ : DailyRecord), ⟨1, 0, 0, 1000, 0⟩] : List DailyRecord) ≠ [] ∧
    ∃ m, computeMetrics (fun a _ => a) id 1000
        [(⟨0, 0, 0, 1000, 0⟩ : DailyRecord), ⟨1, 0, 0, 1000, 0⟩] [] = Except.ok m ∧
      m.lookup "sharpe_ratio" = some (some 0) ∧
      m.lookup "calmar_ratio" = some none ∧
      m.lookup "win_rate" = some none := by
  refine ⟨by simp, ?_⟩
  obtain ⟨m, h0, h1, h2, h3, h4, h5⟩ :=
    C8_degenerate_stats (fun a _ => a) id 1000
      [(⟨0, 0, 0, 1000, 0⟩ : DailyRecord), ⟨1, 0, 0, 1000, 0⟩] [] (by simp)
  refine ⟨m, h0, h1 ?_, h3 ?_, h5 rfl⟩
  · norm_num [stdOptOf, pctChange, pctChangeAux, sampleVar, meanQ, listSum]
  · norm_num [maxDrawdownOf, cummax, cummaxAux, listMin]

/-- **C9.** The claim's zero-day fallback is unreachable: on an empty input
the source raises before `annual_return` is ever assigned
(`result_df["equity"]` on the empty result frame), so the evaluator errors
instead of returning `annual_return = 0`. -/
theorem C9_zero_days_raises (powF : ℚ → ℚ → ℚ) (sqrtF : ℚ → ℚ) (initial : ℚ)
    (pnls : List ℚ) :
    computeMetrics powF sqrtF initial [] pnls = Except.error "KeyError: equity" := rfl

/-- Checked division: `none` exactly when the divisor is zero. -/
def div? (a b : ℚ) : Option ℚ := if b = 0 then none else some (a / b)

theorem div?_of_ne (a b : ℚ) (h : b ≠ 0) : div? a b = some (a / b) := if_neg h

theorem optTruthy_ne (o : Option ℚ) (h : optTruthy o = true) : o.getD 0 ≠ 0 := by
  cases o with
  | none => simp [optTruthy] at h
  | some x => simpa [optTruthy] using h

/-- `alphaExitSub` with its division checked. -/
def alphaExitSubChecked (cfg : Config) (s : State) (r : RowX) : Option State :=
  if 0 < s.alpha_etf_units ∧ optTruthy s.entry_equity_alpha = true then
    let e := s.entry_equity_alpha.getD 0
    let total_value_now := s.cash +
      ((s.base_etf_units + s.alpha_etf_units : ℤ) : ℚ) * r.open_etf -
      ((s.base_fut_units + s.alpha_fut_units : ℤ) : ℚ) * r.open_fut * 10000
    (div? (total_value_now - e) e).map fun alpha_pnl_rate =>
      if cfg.stop_gain ≤ alpha_pnl_rate ∨ alpha_pnl_rate ≤ -cfg.stop_loss then
        { s with realized_pnls := s.realized_pnls ++ [alpha_pnl_rate]
                 alpha_etf_units := 0
                 alpha_fut_units := 0
                 entry_equity_alpha := none }
      else s
  else some s

theorem alphaExitSubChecked_eq (cfg : Config) (s : State) (r : RowX) :
    alphaExitSubChecked cfg s r = some (alphaExitSub cfg s r) := by
  unfold alphaExitSubChecked alphaExitSub
  by_cases hc : 0 < s.alpha_etf_units ∧ optTruthy s.entry_equity_alpha = true
  · rw [if_pos hc, if_pos hc]
    dsimp only
    rw [div?_of_ne _ _ (optTruthy_ne _ hc.2)]
    rfl
  · rw [if_neg hc, if_neg hc]

/-- `primaryExitPhase` with its division checked (the source itself guards
it with `entry_equity != 0`, falling back to a zero return). -/
def primaryExitPhaseChecked (cfg : Config) (s : State) (r : RowX) : Option (State × ℤ) :=
  if s.holding = true then
    let etf_value_open := s.n_etf * r.open_etf
    let fut_pnl_open := (s.entry_fut_price - r.open_fut) * (s.n_fut : ℚ) * 10000
    let current_equity_open := s.cash + etf_value_open + fut_pnl_open
    (if s.entry_equity ≠ 0 then
        div? (current_equity_open - s.entry_equity) s.entry_equity
      else some 0).map fun pnl_rate =>
      if cfg.stop_gain ≤ pnl_rate ∨ pnl_rate ≤ -cfg.stop_loss ∨ ¬ sigPos r.sig = true then
        ({ s with cash := current_equity_open
                  realized_pnls := s.realized_pnls ++ [pnl_rate]
                  holding := false
                  n_etf := 0
                  n_fut := 0
                  capital := current_equity_open }, -1)
      else (s, 0)
  else some (s, 0)

theorem primaryExitPhaseChecked_eq (cfg : Config) (s : State) (r : RowX) :
    primaryExitPhaseChecked cfg s r = some (primaryExitPhase cfg s r) := by
  unfold primaryExitPhaseChecked primaryExitPhase
  by_cases hh : s.holding = true
  · rw [if_pos hh, if_pos hh]
    dsimp only
    by_cases he : s.entry_equity ≠ 0
    · rw [if_pos he, if_pos he, div?_of_ne _ _ he]
      rfl
    · rw [if_neg he, if_neg he]
      rfl
  · rw [if_neg hh, if_neg hh]

/-- `firstPass` with its two divisions checked. -/
def firstPassChecked (s : State) (r : RowX) : Option (ℤ × ℤ) :=
  (div? (availableFunds s) r.open_etf).bind fun q1 =>
    (div? ((max 1 (rnd ((⌊q1⌋ : ℚ) * r.hr)) : ℤ) : ℚ) r.hr).map fun q2 =>
      (⌊q2⌋, max 1 (rnd ((⌊q1⌋ : ℚ) * r.hr)))

theorem firstPassChecked_eq (s : State) (r : RowX)
    (h1 : r.open_etf ≠ 0) (h2 : r.hr ≠ 0) :
    firstPassChecked s r = some (firstPass s r) := by
  unfold firstPassChecked firstPass
  rw [div?_of_ne _ _ h1]
  simp only [Option.some_bind]
  rw [div?_of_ne _ _ h2]
  rfl

/-- `secondPass` with its division checked. -/
def secondPassChecked (s : State) (r : RowX) (ne1 : ℤ) (total1 : ℚ) : Option (ℤ × ℤ) :=
  (div? (availableFunds s) total1).map fun scale =>
    (⌊(ne1 : ℚ) * scale⌋, max 1 (rnd (((⌊(ne1 : ℚ) * scale⌋ : ℤ) : ℚ) * r.hr)))

theorem secondPassChecked_eq (s : State) (r : RowX) (ne1 : ℤ) (total1 : ℚ)
    (h : total1 ≠ 0) :
    secondPassChecked s r ne1 total1 = some (secondPass s r ne1 total1) := by
  unfold secondPassChecked secondPass
  rw [div?_of_ne _ _ h]
  rfl

/-- `primaryEntryPhase` with all its divisions checked. -/
def primaryEntryPhaseChecked (cfg : Config) (s : State) (r : RowX) (ta : ℤ) :
    Option (State × ℤ) :=
  if s.holding = false ∧ sigPos r.sig = true then
    if r.open_etf ≤ 0 ∨ r.hr ≤ 0 then some (s, ta)
    else
      (firstPassChecked s r).bind fun p1 =>
      (if availableFunds s < requiredCapital cfg r p1.1 p1.2 ∧
          0 < requiredCapital cfg r p1.1 p1.2 then
        (secondPassChecked s r p1.1 (requiredCapital cfg r p1.1 p1.2)).map fun p2 =>
          if availableFunds s < requiredCapital cfg r p2.1 p2.2 then
            ((0 : ℤ), (0 : ℤ), (0 : ℚ))
          else (p2.1, p2.2, (p2.1 : ℚ) * r.open_etf)
      else some (p1.1, p1.2, (p1.1 : ℚ) * r.open_etf)).map fun (triple : ℤ × ℤ × ℚ) =>
      let ne := triple.1
      let nf := triple.2.1
      let etf_cost := triple.2.2
      let s1 := { s with n_etf := (ne : ℚ), n_fut := nf }
      if 0 < ne ∧ 0 < nf then
        let slip_etf_cost := (ne : ℚ) * cfg.tick_etf * 3
        let slip_fut_cost := (nf : ℚ) * cfg.tick_fut * 10000
        let cash2 := s1.cash - (etf_cost + slip_etf_cost + slip_fut_cost)
        let ee := cash2 + (ne : ℚ) * r.open_etf
        ({ s1 with cash := cash2
                   holding := true
                   entry_equity := ee
                   entry_etf_price := r.open_etf
                   entry_fut_price := r.open_fut
                   capital := ee }, 1)
      else (s1, ta)
  else some (s, ta)

theorem primaryEntryPhaseChecked_eq (cfg : Config) (s : State) (r : RowX) (ta : ℤ) :
    primaryEntryPhaseChecked cfg s r ta = some (primaryEntryPhase cfg s r ta) := by
  unfold primaryEntryPhaseChecked primaryEntryPhase
  by_cases h0 : s.holding = false ∧ sigPos r.sig = true
  · rw [if_pos h0, if_pos h0]
    by_cases h1 : r.open_etf ≤ 0 ∨ r.hr ≤ 0
    · rw [if_pos h1, if_pos h1]
    · rw [if_neg h1, if_neg h1]
      push_neg at h1
      rw [firstPassChecked_eq s r (ne_of_gt h1.1) (ne_of_gt h1.2)]
      simp only [Option.some_bind]
      try dsimp only
      by_cases h2 : availableFunds s <
            requiredCapital cfg r (firstPass s r).1 (firstPass s r).2 ∧
          0 < requiredCapital cfg r (firstPass s r).1 (firstPass s r).2
      · rw [if_pos h2, if_pos h2,
          secondPassChecked_eq s r _ _ (ne_of_gt h2.2)]
        rfl
      · rw [if_neg h2, if_neg h2]
        rfl
  · rw [if_neg h0, if_neg h0]

/-- `recordPhase` with the cumulative-return division checked. -/
def recordPhaseChecked (cfg : Config) (s : State) (r : RowX) (ta : ℤ) :
    Option DailyRecord :=
  if s.holding = true then
    let current_equity := s.cash +
      ((s.base_etf_units + s.alpha_etf_units : ℤ) : ℚ) * r.open_etf +
      (s.entry_fut_price - r.open_fut) * ((s.base_fut_units + s.alpha_fut_units : ℤ) : ℚ) * 10000
    (div? current_equity cfg.initial_capital).map fun q =>
      { date := r.date
        position := 1
        trade := ta
        equity := current_equity
        cum_return := q - 1 }
  else
    (div? s.cash cfg.initial_capital).map fun q =>
      { date := r.date
        position := 0
        trade := ta
        equity := s.cash
        cum_return := q - 1 }

theorem recordPhaseChecked_eq (cfg : Config) (s : State) (r : RowX) (ta : ℤ)
    (h : cfg.initial_capital ≠ 0) :
    recordPhaseChecked cfg s r ta = some (recordPhase cfg s r ta) := by
  unfold recordPhaseChecked recordPhase
  split_ifs <;> (try dsimp only) <;> rw [div?_of_ne _ _ h] <;> rfl

/-- The Alpha/Base block with its division checked. -/
def alphaBasePhaseChecked (cfg : Config) (s : State) (r : RowX) : Option State :=
  alphaExitSubChecked cfg (alphaAccumSub cfg (baseBuildSub s r) r) r

/-- One loop iteration with every division checked. -/
def stepChecked (cfg : Config) (s : State) (r : RowX) : Option (State × DailyRecord) :=
  (alphaBasePhaseChecked cfg s r).bind fun s1 =>
  (primaryExitPhaseChecked cfg s1 r).bind fun p =>
  (primaryEntryPhaseChecked cfg p.1 r p.2).bind fun q =>
  (recordPhaseChecked cfg q.1 r q.2).map fun rec => (q.1, rec)

/-- **C10.** Under the configuration precondition `initial_capital > 0`,
every division performed inside the daily loop is guarded, so the checked
step (which returns `none` on any division by zero) always succeeds and
agrees with the actual step — in particular the alpha floating-return
division only runs on a non-`None`, nonzero basis; a recorded basis of
exactly `0` silently disables the alpha stop check (second conjunct); the
primary floating return falls back to `0` on zero entry equity; the
back-derivation `n_fut / hedge_ratio` only runs when `hedge_ratio > 0`; and
the scale-down division only runs when the required capital is positive. -/
theorem C10_loop_divisions_guarded (cfg : Config) (hcap : 0 < cfg.initial_capital) :
    (∀ (s : State) (r : RowX), stepChecked cfg s r = some (step cfg s r)) ∧
    (∀ (s : State) (r : RowX), s.entry_equity_alpha = some 0 →
      alphaExitSub cfg s r = s) := by
  constructor
  · intro s r
    unfold stepChecked
    have hab : alphaBasePhaseChecked cfg s r = some (alphaBasePhase cfg s r) := by
      unfold alphaBasePhaseChecked alphaBasePhase
      rw [alphaExitSubChecked_eq]
    rw [hab]
    simp only [Option.some_bind]
    rw [primaryExitPhaseChecked_eq]
    simp only [Option.some_bind]
    rw [primaryEntryPhaseChecked_eq]
    simp only [Option.some_bind]
    rw [recordPhaseChecked_eq _ _ _ _ (ne_of_gt hcap)]
    rw [step_eq]
    rfl
  · intro s r h0
    unfold alphaExitSub
    rw [h0]
    rw [if_neg (by simp [optTruthy])]

/-- Witness for C10 at a concrete configuration, state and row. -/
theorem C10_loop_divisions_guarded_witness :
    (0 : ℚ) < cfg1.initial_capital ∧
    stepChecked cfg1 (initState cfg1) r6 = some (step cfg1 (initState cfg1) r6) :=
  ⟨by norm_num [cfg1],
    (C10_loop_divisions_guarded cfg1 (by norm_num [cfg1])).1 (initState cfg1) r6⟩

end DV01Backtest
